import Mathlib

/-!
Verification development for the `create-kitojs` project-scaffolding CLI.

The definitions below are a shallow embedding of `src/bin/index.ts` (the
current revision of the tool).  Pure helpers are translated as Lean
functions; the interactive, filesystem-mutating flow is translated as a
deterministic function of explicit inputs (parsed argv, a filesystem /
environment oracle, and the user's prompt answers) that returns the list
of performed effects together with the process outcome (normal return or
explicit `process.exit`).

Modelling conventions, noted once here:
* terminal rendering (chalk colors, gradients, figlet banner, ora spinner
  animation and text updates) is identity / out of scope, so printed
  strings appear without ANSI codes and the banner is an abstract effect;
* the `await setTimeout` cosmetic delays perform no effect and are not
  modelled (real time is out of scope);
* each `prompts(...)` call is recorded as a `prompt` effect carrying the
  prompt's `name` property, and its resolution is driven by a caller
  supplied answer (or cancellation, which triggers the `onCancel`
  handler exactly as in the source);
* fallible filesystem operations inside the `try` block are driven by a
  `failAt` oracle naming the first operation that throws, mirroring the
  single `catch` in the source; a throwing operation performs no modelled
  effect;
* `JSON.parse` of the copied template manifest is modelled by an oracle
  field holding the parsed ordered field list (JavaScript objects keep
  string-key insertion order), and `JSON.stringify(x, null, 2)` by the
  executable renderer `jsonRender` below.
-/

namespace CreateKitojs

/-- JS `String.prototype.startsWith` on character lists:
`listStartsWith pat s` is true when `s` begins with `pat`. -/
def listStartsWith : List Char → List Char → Bool
  | [], _ => true
  | _ :: _, [] => false
  | p :: ps, c :: cs => p == c && listStartsWith ps cs

/-- JS `String.prototype.includes` scan: `listContains pat s` is true when
`pat` occurs as a contiguous substring of `s`. -/
def listContains (pat : List Char) : List Char → Bool
  | [] => listStartsWith pat []
  | s@(_ :: cs) => listStartsWith pat s || listContains pat cs

/-- JS `haystack.includes(needle)`. -/
def strIncludes (s pat : String) : Bool := listContains pat.data s.data

/-- JS `String.prototype.replace` with a string pattern: replace the first
occurrence of `pat` only (used for the `<PROJECT_NAME>` /
`<PACKAGE_MANAGER>` placeholders). -/
def listReplaceFirst (pat repl : List Char) : List Char → List Char
  | [] => if pat.isEmpty then repl else []
  | s@(c :: cs) =>
      if listStartsWith pat s then repl ++ s.drop pat.length
      else c :: listReplaceFirst pat repl cs

/-- JS `s.replace(pat, repl)` (first occurrence only). -/
def replaceFirst (s pat repl : String) : String :=
  ⟨listReplaceFirst pat.data repl.data s.data⟩

/-- JS `s.repeat(n)`. -/
def strRepeat (s : String) (n : Nat) : String :=
  String.join (List.replicate n s)

/-- `interface Template` from `src/bin/index.ts` lines 175-181. -/
structure Template where
  name : String
  value : String
  description : String
  emoji : String
  steps : List String
deriving DecidableEq

/-- First entry of the `templates` registry (lines 184-194). -/
def nodejsTemplate : Template :=
  { name := "Node.js"
    value := "nodejs"
    description := "Standard Node.js runtime with TypeScript"
    emoji := "🟢"
    steps := ["cd <PROJECT_NAME>", "<PACKAGE_MANAGER> install", "<PACKAGE_MANAGER> run dev"] }

/-- Second entry of the `templates` registry (lines 195-201). -/
def bunTemplate : Template :=
  { name := "Bun"
    value := "bun"
    description := "Blazing fast JavaScript runtime"
    emoji := "🥟"
    steps := ["cd <PROJECT_NAME>", "bun install", "bun dev"] }

/-- Third entry of the `templates` registry (lines 202-208). -/
def denoTemplate : Template :=
  { name := "Deno"
    value := "deno"
    description := "Secure runtime for JavaScript and TypeScript"
    emoji := "🦕"
    steps := ["cd <PROJECT_NAME>", "deno task dev"] }

/-- The module-level `templates` registry (lines 183-209). -/
def templatesRegistry : List Template := [nodejsTemplate, bunTemplate, denoTemplate]

/-- `detectPackageManager` (lines 65-75).  The single environment signal
`process.env.npm_config_user_agent` is passed explicitly; `none` models an
absent variable (`?? ""` in the source). -/
def detectPackageManager (userAgentEnv : Option String) : String :=
  let userAgent := userAgentEnv.getD ""
  if strIncludes userAgent "pnpm" then "pnpm"
  else if strIncludes userAgent "yarn" then "yarn"
  else if strIncludes userAgent "bun" then "bun"
  else if strIncludes userAgent "deno" then "deno"
  else if strIncludes userAgent "npm" then "npm"
  else "npm"

/-- Row of the command lookup table in `getPackageManagerCommands`. -/
structure PmCommands where
  install : String
  run : String
  exec : String
deriving DecidableEq

/-- `getPackageManagerCommands` (lines 77-90): record lookup with fallback
to the `npm` row. -/
def getPackageManagerCommands (pkgManager : String) : PmCommands :=
  if pkgManager == "npm" then ⟨"npm install", "npm run", "npx"⟩
  else if pkgManager == "pnpm" then ⟨"pnpm install", "pnpm", "pnpm dlx"⟩
  else if pkgManager == "yarn" then ⟨"yarn", "yarn", "yarn dlx"⟩
  else if pkgManager == "bun" then ⟨"bun install", "bun", "bunx"⟩
  else if pkgManager == "deno" then ⟨"", "deno task", "deno run"⟩
  else ⟨"npm install", "npm run", "npx"⟩

/-- `generateReadme` (lines 92-173), the template literal written out as
explicit concatenation. -/
def generateReadme (template : Template) (pkgManager : String) : String :=
  let cmds := getPackageManagerCommands pkgManager
  let installSection :=
    if template.value == "deno" then ""
    else
      "\n### Install Dependencies\n\nInstall project dependencies:\n\n```bash\n"
        ++ cmds.install ++ "\n```\n"
  "# Kito Project\n\nThe high-performance, type-safe and modern TypeScript web framework written in Rust.\n\n## 🚀 Getting Started\n\n"
    ++ installSection
    ++ "\n### Development\n\nStart the development server with hot reload:\n\n```bash\n"
    ++ cmds.run ++ " dev\n```\n\nThe server will start at `http://localhost:3000`\n"
    ++ (if template.value != "deno" then
          "\n### Build\n\nCompile TypeScript to JavaScript:\n\n```bash\n"
            ++ cmds.run ++ " build\n```\n\n### Production\n\nRun the compiled application:\n\n```bash\n"
            ++ cmds.run ++ " start\n```"
        else
          "\n### Production\n\nRun the application:\n\n```bash\n"
            ++ cmds.run ++ " start\n```")
    ++ "\n\n## 📁 Project Structure\n\n```\n.\n├── src/\n│   └── index.ts      # Main application entry point"
    ++ (if template.value != "deno" then
          "\n├── dist/             # Compiled output (generated)\n├── package.json\n└── tsconfig.json"
        else
          "\n└── deno.json         # Deno configuration")
    ++ "\n```\n\n## 📖 Learn More\n\n- [Kito Documentation](https://kito.pages.dev)\n- [GitHub Repository](https://github.com/kitojs/kito)\n"

/-- `helpMessage` (lines 41-53), chalk rendering stripped. -/
def helpMessage : String :=
  "\nUsage: create-kitojs <PROJECT_NAME> [OPTIONS]\n\nOptions:\n    -h, --help       Show this help message\n    --overwrite     Overwrite existing project directory if it exists\n    --template      Specify a runtime template (e.g., \"nodejs\", \"bun\")\n\nExamples:\n    $ npm create kitojs@latest\n    $ npm create kitojs@latest my-project\n    $ npm create kitojs@latest my-project --template bun\n"

/-- Parsed JSON values, as produced by `JSON.parse` of the template
manifest.  Object fields keep JavaScript's string-key insertion order.
Number / boolean / null literals are carried as their rendered text in
`atom` (no claim depends on number formatting). -/
inductive JsonVal where
  | str (s : String)
  | atom (s : String)
  | arr (xs : List JsonVal)
  | obj (fields : List (String × JsonVal))

/-- Hex digit for `jsonEscapeChar` (JSON.stringify uses `\u00XX` escapes
for control characters). -/
def hexDigit (n : Nat) : Char :=
  if n < 10 then Char.ofNat (48 + n) else Char.ofNat (87 + n)

/-- Four-digit hexadecimal rendering used by `\uXXXX` escapes. -/
def hex4 (n : Nat) : String :=
  ⟨[hexDigit (n / 4096 % 16), hexDigit (n / 256 % 16), hexDigit (n / 16 % 16), hexDigit (n % 16)]⟩

/-- Escaping of one character inside a JSON string literal, as
implemented by `JSON.stringify`. -/
def jsonEscapeChar (c : Char) : String :=
  if c == '"' then "\\\""
  else if c == '\\' then "\\\\"
  else if c == '\n' then "\\n"
  else if c == '\r' then "\\r"
  else if c == '\t' then "\\t"
  else if c.toNat == 8 then "\\b"
  else if c.toNat == 12 then "\\f"
  else if c.toNat < 32 then "\\u" ++ hex4 c.toNat
  else ⟨[c]⟩

/-- `JSON.stringify` rendering of a string literal. -/
def jsonQuote (s : String) : String :=
  "\"" ++ String.join (s.data.map jsonEscapeChar) ++ "\""

/-- Indentation of `n` spaces. -/
def jsonIndent (n : Nat) : String := ⟨List.replicate n ' '⟩

mutual

/-- `JSON.stringify(v, null, gap)` at nesting depth `depth`
(`JSON.stringify(packageJson, null, 2)` is `jsonRender 2 0`). -/
def jsonRender (gap depth : Nat) : JsonVal → String
  | .str s => jsonQuote s
  | .atom s => s
  | .arr [] => "[]"
  | .arr (x :: xs) =>
      "[\n" ++ jsonItems gap (depth + 1) (x :: xs) ++ "\n" ++ jsonIndent (gap * depth) ++ "]"
  | .obj [] => "\x7b\x7d"
  | .obj (f :: fs) =>
      "\x7b\n" ++ jsonFields gap (depth + 1) (f :: fs) ++ "\n" ++ jsonIndent (gap * depth) ++ "\x7d"

/-- Array items, one per line, comma separated. -/
def jsonItems (gap depth : Nat) : List JsonVal → String
  | [] => ""
  | [x] => jsonIndent (gap * depth) ++ jsonRender gap depth x
  | x :: y :: xs =>
      jsonIndent (gap * depth) ++ jsonRender gap depth x ++ ",\n" ++ jsonItems gap depth (y :: xs)

/-- Object fields, one per line, comma separated. -/
def jsonFields (gap depth : Nat) : List (String × JsonVal) → String
  | [] => ""
  | [(k, v)] => jsonIndent (gap * depth) ++ jsonQuote k ++ ": " ++ jsonRender gap depth v
  | (k, v) :: g :: fs =>
      jsonIndent (gap * depth) ++ jsonQuote k ++ ": " ++ jsonRender gap depth v
        ++ ",\n" ++ jsonFields gap depth (g :: fs)

end

/-- JavaScript property assignment `obj[k] = v` on an insertion-ordered
object: replace the value in place when the key exists, append the key
otherwise. -/
def setField : List (String × JsonVal) → String → JsonVal → List (String × JsonVal)
  | [], k, v => [(k, v)]
  | (k', v') :: rest, k, v =>
      if k' == k then (k, v) :: rest else (k', v') :: setField rest k v

/-- Property read `obj[k]` (first matching field). -/
def lookupField (m : List (String × JsonVal)) (k : String) : Option JsonVal :=
  (m.find? (fun f => f.1 == k)).map Prod.snd

/-- `packageJson.name = projectName` (line 317). -/
def packageJsonRewritten (m : List (String × JsonVal)) (projectName : String) :
    List (String × JsonVal) :=
  setField m "name" (.str projectName)

/-- Observable effects performed by the tool, in execution order.
`banner` abstracts the figlet/gradient banner; `prompt` records a
`prompts(...)` call by its `name` property; `fsCp` carries the copied
template tree (relative path, content) supplied by the oracle. -/
inductive Eff where
  | banner
  | printOut (s : String)
  | printErr (s : String)
  | prompt (name : String)
  | fsRm (p : String)
  | fsMkdir (p : String)
  | fsCp (src dst : String) (files : List (String × String))
  | fsWrite (p : String) (content : String)
  | spawnInstall (cmd cwd : String)
deriving DecidableEq

/-- Effects that mutate the filesystem or spawn a process (everything
except terminal output and prompting). -/
def isMutation : Eff → Bool
  | .fsRm _ => true
  | .fsMkdir _ => true
  | .fsCp _ _ _ => true
  | .fsWrite _ _ => true
  | .spawnInstall _ _ => true
  | _ => false

/-- Child-process effects. -/
def isSpawn : Eff → Bool
  | .spawnInstall _ _ => true
  | _ => false

/-- A filesystem snapshot: file path ↦ content (directories are implicit
in the paths). -/
abbrev FsState := List (String × String)

/-- `path.join(a, b)` for the simple relative names used by the tool. -/
def pathJoin (a b : String) : String := a ++ "/" ++ b

/-- Is path `p` equal to `dir` or inside directory `dir`? -/
def pathWithin (dir p : String) : Bool :=
  p == dir || (dir ++ "/").isPrefixOf p

/-- Semantics of one effect on a filesystem snapshot.  Non-filesystem
effects leave the snapshot unchanged. -/
def applyEff (fs : FsState) : Eff → FsState
  | .fsRm p => fs.filter (fun f => !pathWithin p f.1)
  | .fsMkdir _ => fs
  | .fsCp _ dst files =>
      let newFiles := files.map (fun f => (pathJoin dst f.1, f.2))
      fs.filter (fun f => newFiles.all (fun g => g.1 != f.1)) ++ newFiles
  | .fsWrite p c => fs.filter (fun f => f.1 != p) ++ [(p, c)]
  | .banner => fs
  | .printOut _ => fs
  | .printErr _ => fs
  | .prompt _ => fs
  | .spawnInstall _ _ => fs

/-- Applying a whole effect trace to a filesystem snapshot. -/
def applyTrace (fs : FsState) (trace : List Eff) : FsState :=
  trace.foldl applyEff fs

/-- Outcome of a flow step: normal continuation with a value, or
`process.exit(code)`. -/
inductive StepOutcome (α : Type) where
  | continue (a : α)
  | exited (code : Nat)
deriving DecidableEq

/-- Final process exit code: `process.exit(code)` when called, otherwise
node exits with code 0 once the `init()` promise resolves. -/
def finalExitCode : StepOutcome Unit → Nat
  | .continue _ => 0
  | .exited c => c

/-- A user's reply to one `prompts(...)` call: a value, or interrupt
(which triggers the registered `onCancel`). -/
inductive PAnswer (α : Type) where
  | given (a : α)
  | cancel
deriving DecidableEq

/-- A positional argument parsed by `mri` (`argv._[0]` has type
`string | number`). -/
inductive MriVal where
  | str (s : String)
  | num (n : Int)
deriving DecidableEq

/-- The flags parsed by `mri` (lines 55-63).  `positional` is
`argv._[0]`; parsing internals are out of scope per the spec. -/
structure Argv where
  help : Bool
  overwrite : Bool
  template : Option String
  positional : Option MriVal
deriving DecidableEq

/-- The first fallible operation of the `try` block (lines 291-335) that
throws in a given run; `none` means every operation succeeds. -/
inductive FailStep where
  | rm
  | mkdir
  | cp
  | readManifest
  | writeManifest
  | writeReadme
deriving DecidableEq

/-- Filesystem / environment oracle for one invocation: whether the
destination exists, the template tree that `cpSync` would copy, the
parsed template manifest, where (if anywhere) the `try` block throws,
and whether the spawned install succeeds. -/
structure World where
  destExists : Bool
  templateTree : List (String × String)
  templateManifest : List (String × JsonVal)
  failAt : Option FailStep
  installOk : Bool

/-- The user's answers to the four interactive prompts. -/
structure Answers where
  nameInputs : List (PAnswer String)
  overwriteAnswer : PAnswer Bool
  selectAnswer : PAnswer String
  installAnswer : PAnswer Bool

/-- `⚠ Operation cancelled by user.` message (lines 246 and 456). -/
def cancelledByUserMsg : String := "\n⚠ Operation cancelled by user.\n"

/-- `ℹ Project creation cancelled.` message (lines 267 and 274). -/
def cancelCreationMsg : String := "\nℹ Project creation cancelled.\n"

/-- `✓ Using template: ...` message (lines 221-223). -/
def usingTemplateMsg (t : Template) : String :=
  "\n✓ Using template: " ++ t.name ++ " " ++ t.emoji ++ "\n"

/-- `✗ Template "..." is not recognized.` diagnostic (lines 227-229). -/
def unrecognizedTemplateMsg (tv : String) : String :=
  "\n✗ Template \"" ++ tv ++ "\" is not recognized.\n"

/-- The interactive single-choice fallback of `selectTemplate`
(lines 233-252), driven by the user's answer. -/
def selectTemplateInteractive (ts : List Template) (ans : PAnswer String) :
    List Eff × StepOutcome (Option Template) :=
  match ans with
  | .cancel => ([.prompt "selectedTemplate", .printOut cancelledByUserMsg], .exited 0)
  | .given v => ([.prompt "selectedTemplate"], .continue (ts.find? (fun t => t.value == v)))

/-- `selectTemplate` (lines 211-253).  The source reads the module-level
`templates` registry; it is passed explicitly here (the flow below always
passes `templatesRegistry`).  An empty requested identifier is falsy in
JavaScript, so `if (templateValue)` skips to the interactive fallback. -/
def selectTemplate (ts : List Template) (templateValue : Option String)
    (ans : PAnswer String) : List Eff × StepOutcome (Option Template) :=
  if ts.length == 1 then
    ([], .continue ts.head?)
  else
    match templateValue with
    | some tv =>
        if tv == "" then selectTemplateInteractive ts ans
        else
          match ts.find? (fun t => t.value == tv) with
          | some selected => ([.printOut (usingTemplateMsg selected)], .continue (some selected))
          | none => ([.printErr (unrecognizedTemplateMsg tv)], .continue none)
    | none => selectTemplateInteractive ts ans

/-- `"═".repeat(50)` separator line printed by `printNextSteps`. -/
def nextStepsRule : String := "\n" ++ strRepeat "═" 50 ++ "\n"

/-- `🚀 Next steps:` header (line 401). -/
def nextStepsHeader : String := "🚀 Next steps:\n"

/-- Placeholder substitution applied to each step
(lines 407-411): `<PROJECT_NAME>` first, then `<PACKAGE_MANAGER>`
(each a first-occurrence `String.prototype.replace`). -/
def substStep (projectName : String) (ua : Option String) (step : String) : String :=
  replaceFirst (replaceFirst step "<PROJECT_NAME>" projectName)
    "<PACKAGE_MANAGER>" (detectPackageManager ua)

/-- Numbered rendering of the substituted step commands (lines 405-413). -/
def numberSteps : Nat → List String → List Eff
  | _, [] => []
  | i, s :: rest => .printOut ("  " ++ toString (i + 1) ++ ". " ++ s) :: numberSteps (i + 1) rest

/-- The fixed framing of the next-steps block: rules, header, the
numbered commands, and the documentation / issues / happy-coding footer
(lines 400-426). -/
def nextStepsFrame (cmds : List String) : List Eff :=
  [.printOut nextStepsRule, .printOut nextStepsHeader]
    ++ numberSteps 0 cmds
    ++ [.printOut nextStepsRule,
        .printOut "  📚 Documentation: https://kito.pages.dev",
        .printOut "  🐛 Issues: https://github.com/kitojs/kito/issues",
        .printOut "\n  Happy coding! ✨\n"]

/-- `printNextSteps` (lines 395-427): with `depsInstalled` the steps are
`template.steps.slice(1)`, otherwise all of `template.steps`. -/
def printNextSteps (projectName : String) (template : Template)
    (depsInstalled : Bool) (ua : Option String) : List Eff :=
  nextStepsFrame
    ((if depsInstalled then template.steps.drop 1 else template.steps).map
      (substStep projectName ua))

/-- Root of the bundled templates directory.  In the source it is
`path.resolve(fileURLToPath(import.meta.url), "../../template")`, i.e. a
fixed location relative to the tool's own installation; the absolute
part is abstracted away. -/
def templatesRoot : String := "template"

/-- The source directory of a resolved template (lines 301-305). -/
def templateDir (t : Template) : String := templatesRoot ++ "/" ++ t.value

/-- Serialized manifest written back by the tool
(lines 315-319): `JSON.stringify` of the parsed manifest with its `name`
property assigned, rendered with a 2-space gap. -/
def packageJsonContent (m : List (String × JsonVal)) (projectName : String) : String :=
  jsonRender 2 0 (.obj (packageJsonRewritten m projectName))

/-- `✓ Project "..." created successfully!` (lines 333-335). -/
def createdMsg (projectName : String) : String :=
  "✓ Project \"" ++ projectName ++ "\" created successfully!"

/-- `✗ Failed to create project.` (line 337).  The `console.error(error)`
of the caught exception object is not modelled (its rendering depends on
the thrown value). -/
def createFailMsg : String := "✗ Failed to create project."

/-- The ordered fallible operations of the `try` block (lines 291-331),
each paired with the effect it performs when it succeeds:
conditional `rmSync`, `mkdirSync`, recursive `cpSync`, then — for
templates with a manifest (not `deno`) — the manifest read/parse and
rewrite, and finally the README generation and write. -/
def tryOps (projectName : String) (template : Template) (world : World)
    (ua : Option String) : List (FailStep × List Eff) :=
  (if world.destExists then [(FailStep.rm, [Eff.fsRm projectName])] else [])
    ++ [(FailStep.mkdir, [Eff.fsMkdir projectName]),
        (FailStep.cp, [Eff.fsCp (templateDir template) projectName world.templateTree])]
    ++ (if template.value != "deno" then
          [(FailStep.readManifest, ([] : List Eff)),
           (FailStep.writeManifest,
             [Eff.fsWrite (pathJoin projectName "package.json")
               (packageJsonContent world.templateManifest projectName)])]
        else [])
    ++ [(FailStep.writeReadme,
          [Eff.fsWrite (pathJoin projectName "README.md")
            (generateReadme template (detectPackageManager ua))])]

/-- Run the `try` block operations in order until one throws: returns the
effects performed and whether the block completed. -/
def runTry : List (FailStep × List Eff) → Option FailStep → List Eff × Bool
  | [], _ => ([], true)
  | (s, effs) :: rest, failAt =>
      if failAt == some s then ([], false)
      else
        let r := runTry rest failAt
        (effs ++ r.1, r.2)

/-- `ℹ Detected package manager: ...` (lines 344-346). -/
def detectedPmMsg (pkgManager : String) : String :=
  "\nℹ Detected package manager: " ++ pkgManager ++ "\n"

/-- `Deno uses npm: specifiers - no installation needed!` (line 371). -/
def denoNoInstallMsg : String := "Deno uses npm: specifiers - no installation needed!"

/-- `✓ Dependencies installed successfully!` (lines 378-380). -/
def depsInstalledMsg : String := "✓ Dependencies installed successfully!"

/-- `✗ Failed to install dependencies automatically.` (lines 383-385). -/
def depsFailMsg : String := "✗ Failed to install dependencies automatically."

/-- Manual installation hint (lines 386-388). -/
def manualInstallMsg (projectName pkgManager : String) : String :=
  "ℹ You can install them manually by running: cd " ++ projectName
    ++ " && " ++ pkgManager ++ " install\n"

/-- The dependency-install phase of `createProject` (lines 342-393):
detected-manager message, install confirmation prompt (cancel prints the
next steps without install and exits 0), then — on a yes — either the
deno short-circuit message or the spawned `<pkgManager> install` with its
success / caught-failure reporting, and finally `printNextSteps`. -/
def createProjectInstall (pre : List Eff) (projectName : String) (template : Template)
    (world : World) (ua : Option String) (installAnswer : PAnswer Bool) :
    List Eff × StepOutcome Unit :=
  let pkgManager := detectPackageManager ua
  match installAnswer with
  | .cancel =>
      (pre ++ [.printOut (detectedPmMsg pkgManager), .prompt "installDeps"]
          ++ printNextSteps projectName template false ua, .exited 0)
  | .given installDeps =>
      let installEffs : List Eff :=
        if installDeps then
          if template.value == "deno" then [.printOut denoNoInstallMsg]
          else if world.installOk then
            [.spawnInstall (pkgManager ++ " install") projectName, .printOut depsInstalledMsg]
          else
            [.spawnInstall (pkgManager ++ " install") projectName,
             .printErr depsFailMsg,
             .printOut (manualInstallMsg projectName pkgManager)]
        else []
      (pre ++ [.printOut (detectedPmMsg pkgManager), .prompt "installDeps"]
          ++ installEffs ++ printNextSteps projectName template installDeps ua,
        .continue ())

/-- The `try`/`catch` materialization phase of `createProject`
(lines 286-340): on success continue into the install phase, on a caught
exception report the failure and `process.exit(1)`. -/
def createProjectMaterialize (pre : List Eff) (projectName : String) (template : Template)
    (world : World) (ua : Option String) (installAnswer : PAnswer Bool) :
    List Eff × StepOutcome Unit :=
  let r := runTry (tryOps projectName template world ua) world.failAt
  if r.2 then
    createProjectInstall (pre ++ r.1 ++ [.printOut (createdMsg projectName)])
      projectName template world ua installAnswer
  else
    (pre ++ r.1 ++ [.printErr createFailMsg], .exited 1)

/-- `createProject` (lines 255-393): overwrite confirmation for an
existing destination (decline returns with nothing touched, cancel exits
0), template resolution (unresolved aborts), then materialization and
the install phase. -/
def createProject (projectName : String) (args : Argv) (world : World)
    (ans : Answers) (ua : Option String) : List Eff × StepOutcome Unit :=
  let afterOverwrite : List Eff → List Eff × StepOutcome Unit := fun pre =>
    match selectTemplate templatesRegistry args.template ans.selectAnswer with
    | (selEffs, .exited c) => (pre ++ selEffs, .exited c)
    | (selEffs, .continue none) => (pre ++ selEffs, .continue ())
    | (selEffs, .continue (some template)) =>
        createProjectMaterialize (pre ++ selEffs) projectName template world ua
          ans.installAnswer
  if world.destExists && !args.overwrite then
    match ans.overwriteAnswer with
    | .cancel => ([.prompt "overwrite", .printOut cancelCreationMsg], .exited 0)
    | .given false => ([.prompt "overwrite", .printOut cancelCreationMsg], .continue ())
    | .given true => afterOverwrite [.prompt "overwrite"]
  else
    afterOverwrite []

/-- JS `String.prototype.trim`: drop leading and trailing whitespace
(`Char.isWhitespace` covers the whitespace characters relevant to the
names involved). -/
def strTrim (s : String) : String :=
  ⟨((s.data.dropWhile Char.isWhitespace).reverse.dropWhile Char.isWhitespace).reverse⟩

/-- The test `/^[a-z0-9-_]+$/.test(name)` from the prompt validator: a
nonempty string of lowercase letters, digits, hyphens and underscores. -/
def matchesNamePattern (name : String) : Bool :=
  name != "" && name.data.all (fun c =>
    ('a' ≤ c && c ≤ 'z') || ('0' ≤ c && c ≤ '9') || c == '-' || c == '_')

/-- The inline `validate` of the project-name text prompt
(lines 447-452): returns an error message, or `none` for a valid name
(the source returns `true`). -/
def validateProjectName (name : String) : Option String :=
  if strTrim name == "" then some "Project name cannot be empty."
  else if !matchesNamePattern name then
    some "Project name can only contain lowercase letters, numbers, hyphens, and underscores."
  else none

/-- Result of a validated text prompt. -/
inductive TextPromptResult where
  | ok (s : String)
  | cancelled
deriving DecidableEq

/-- The `prompts` text question with inline validation: invalid entries
are rejected and the question re-asked, so the prompt resolves only with
a validated value or a cancellation.  The user's successive entries are
the input list; an exhausted list is modelled as giving up (cancel). -/
def runTextPrompt (validate : String → Option String) :
    List (PAnswer String) → TextPromptResult
  | [] => .cancelled
  | .cancel :: _ => .cancelled
  | .given s :: rest =>
      if validate s == none then .ok s else runTextPrompt validate rest

/-- `init` (lines 429-468): help path, banner, positional project name if
it is a truthy string, otherwise the validated text prompt (cancel exits
0), then hand-off to `createProject`. -/
def init (args : Argv) (world : World) (ans : Answers) (ua : Option String) :
    List Eff × StepOutcome Unit :=
  if args.help then
    ([.banner, .printOut helpMessage], .continue ())
  else
    let promptPath : List Eff × StepOutcome Unit :=
      match runTextPrompt validateProjectName ans.nameInputs with
      | .cancelled =>
          ([.banner, .prompt "projectName", .printOut cancelledByUserMsg], .exited 0)
      | .ok s =>
          if s == "" then ([.banner, .prompt "projectName"], .continue ())
          else
            let r := createProject s args world ans ua
            ([.banner, .prompt "projectName"] ++ r.1, r.2)
    match args.positional with
    | some (.str s) =>
        if s == "" then promptPath
        else
          let r := createProject s args world ans ua
          ([.banner] ++ r.1, r.2)
    | some (.num _) => promptPath
    | none => promptPath

/-- The top-level `init().catch(...)` handler (lines 470-474): print the
unexpected-error banner and the error, then `process.exit(1)`. -/
def topLevelCatch (errText : String) : List Eff × StepOutcome Unit :=
  ([.printErr "\n✗ An unexpected error occurred:\n", .printErr errText], .exited 1)

/-! ### Shared example inputs used by witness theorems -/

/-- A world whose destination does not yet exist and where every
operation succeeds. -/
def worldNoDest : World := ⟨false, [], [], none, true⟩

/-- A world whose destination already exists and where every operation
succeeds. -/
def worldDestYes : World := ⟨true, [], [], none, true⟩

/-- Answers that confirm overwrite, pick nodejs, and decline install. -/
def answersQuiet : Answers := ⟨[], .given true, .given "nodejs", .given false⟩

/-- Answers that decline the overwrite confirmation. -/
def answersDecline : Answers := ⟨[], .given false, .given "nodejs", .given false⟩

/-- A small pre-existing filesystem snapshot. -/
def fsExample : FsState := [("my-app/src/index.ts", "console.log(1)")]

/-! ### Claims -/

/-- Modelled from the spec (§4.1, §8): package-manager detection with
priority `pnpm`, then `yarn`, then `bun`, then `deno`, returning `npm`
when the signal is absent or matches no known name; the first rule in
priority order wins. -/
def detectPackageManagerSpec (userAgentEnv : Option String) : String :=
  match userAgentEnv with
  | none => "npm"
  | some ua =>
      if strIncludes ua "pnpm" then "pnpm"
      else if strIncludes ua "yarn" then "yarn"
      else if strIncludes ua "bun" then "bun"
      else if strIncludes ua "deno" then "deno"
      else "npm"

/-- C4: `detectPackageManager` is a pure function of the single
environment signal performing ordered substring matching with priority
pnpm, yarn, bun, deno, and returns "npm" when the signal is absent or
matches no known name; with several matching substrings the first rule
in that priority order wins. -/
theorem detectPackageManager_matches_spec (ua : Option String) :
    detectPackageManager ua = detectPackageManagerSpec ua := by
  cases ua with
  | none => rfl
  | some s =>
      simp only [detectPackageManager, detectPackageManagerSpec, Option.getD_some]
      split_ifs <;> rfl

/-- C5: for a registry containing exactly one template, `selectTemplate`
returns that sole template for every requested identifier value
(including `none` and identifiers matching no entry) and for every
prompt behaviour, performing no effect. -/
theorem selectTemplate_singleton_registry (t : Template) (tv : Option String)
    (ans : PAnswer String) :
    selectTemplate [t] tv ans = ([], .continue (some t)) := rfl

/-- C1 counterexample: the empty string is a requested identifier present
in no entry of the multi-entry registry, yet `selectTemplate` does not
return the unresolved condition with a diagnostic: being falsy, the empty
identifier falls through to the interactive selection, and a subsequent
choice resolves a template, so creation proceeds. -/
theorem selectTemplate_empty_identifier_counterexample :
    templatesRegistry.all (fun t => t.value != "") = true
    ∧ selectTemplate templatesRegistry (some "") (.given "nodejs")
        = ([.prompt "selectedTemplate"], .continue (some nodejsTemplate)) :=
  ⟨rfl, rfl⟩

/-- C1 (amended: for every NON-EMPTY requested identifier absent from a
multi-entry registry): `selectTemplate` returns the unresolved condition
after printing the diagnostic naming the offending value, and — for
EVERY world (destination existing or not) and every set of prompt
answers — the creation flow performs no filesystem mutation: its whole
trace leaves any filesystem snapshot byte-identical, the run never
proceeds past resolution (it returns normally or exits 0 at the
overwrite prompt), and when the destination does not pre-exist the trace
is exactly the diagnostic. -/
theorem selectTemplate_unrecognized_aborts
    (ts : List Template) (tv pn : String) (ans : Answers) (world : World)
    (ow : Bool) (pos : Option MriVal) (ua : Option String) (fs : FsState)
    (hlen : 2 ≤ ts.length) (hne : tv ≠ "")
    (hmiss : ∀ t ∈ ts, t.value ≠ tv)
    (hmiss2 : ∀ t ∈ templatesRegistry, t.value ≠ tv) :
    selectTemplate ts (some tv) ans.selectAnswer
        = ([.printErr (unrecognizedTemplateMsg tv)], .continue none)
    ∧ (createProject pn ⟨false, ow, some tv, pos⟩ world ans ua).1.all
        (fun e => !isMutation e) = true
    ∧ applyTrace fs (createProject pn ⟨false, ow, some tv, pos⟩ world ans ua).1 = fs
    ∧ ((createProject pn ⟨false, ow, some tv, pos⟩ world ans ua).2 = .continue ()
        ∨ (createProject pn ⟨false, ow, some tv, pos⟩ world ans ua).2 = .exited 0)
    ∧ (world.destExists = false →
        createProject pn ⟨false, ow, some tv, pos⟩ world ans ua
          = ([.printErr (unrecognizedTemplateMsg tv)], .continue ())) := by
  have hfind : ts.find? (fun t => t.value == tv) = none := by
    apply List.find?_eq_none.mpr
    intro t ht
    simpa using hmiss t ht
  have hfind2 : templatesRegistry.find? (fun t => t.value == tv) = none := by
    apply List.find?_eq_none.mpr
    intro t ht
    simpa using hmiss2 t ht
  have hlen1 : (ts.length == 1) = false := by
    simp only [beq_eq_false_iff_ne]
    omega
  have hne1 : (tv == "") = false := by simpa using hne
  have h1 : selectTemplate ts (some tv) ans.selectAnswer
      = ([.printErr (unrecognizedTemplateMsg tv)], .continue none) := by
    simp [selectTemplate, hlen1, hne1, hfind]
  have hlr : (templatesRegistry.length == 1) = false := by decide
  have hsel2 : selectTemplate templatesRegistry (some tv) ans.selectAnswer
      = ([.printErr (unrecognizedTemplateMsg tv)], .continue none) := by
    simp [selectTemplate, hlr, hne1, hfind2]
  have hmain : createProject pn ⟨false, ow, some tv, pos⟩ world ans ua
      = if world.destExists && !ow then
          match ans.overwriteAnswer with
          | .cancel => ([.prompt "overwrite", .printOut cancelCreationMsg], .exited 0)
          | .given false => ([.prompt "overwrite", .printOut cancelCreationMsg], .continue ())
          | .given true =>
              ([.prompt "overwrite", .printErr (unrecognizedTemplateMsg tv)], .continue ())
        else ([.printErr (unrecognizedTemplateMsg tv)], .continue ()) := by
    simp [createProject, hsel2]
  refine ⟨h1, ?_, ?_, ?_, ?_⟩
  · rw [hmain]
    split
    · split <;> rfl
    · rfl
  · rw [hmain]
    split
    · split <;> rfl
    · rfl
  · rw [hmain]
    split
    · split
      · exact Or.inr rfl
      · exact Or.inl rfl
      · exact Or.inl rfl
    · exact Or.inl rfl
  · intro hdest
    rw [hmain]
    simp [hdest]

/-- C1 witness: the amended theorem applied at the concrete unrecognized
identifier `nonexistent`, on a pre-existing destination with the
overwrite confirmation answered yes — no mutation happens. -/
theorem selectTemplate_unrecognized_aborts_witness :
    2 ≤ templatesRegistry.length
    ∧ ("nonexistent" : String) ≠ ""
    ∧ (∀ t ∈ templatesRegistry, t.value ≠ "nonexistent")
    ∧ (createProject "my-app" ⟨false, false, some "nonexistent", none⟩
        worldDestYes answersQuiet none).1.all (fun e => !isMutation e) = true :=
  ⟨by decide, by decide, by decide,
    (selectTemplate_unrecognized_aborts templatesRegistry "nonexistent" "my-app"
      answersQuiet worldDestYes false none none fsExample (by decide) (by decide)
      (by decide) (by decide)).2.1⟩

/-- C2: when the destination exists, the overwrite flag is false and the
user declines the confirmation, `createProject` returns normally having
performed only the prompt and a message: applying its trace to any
filesystem snapshot leaves the snapshot byte-identical. -/
theorem createProject_decline_overwrite_no_mutation
    (pn : String) (args : Argv) (world : World) (ans : Answers)
    (ua : Option String) (fs : FsState)
    (hdest : world.destExists = true) (how : args.overwrite = false)
    (hans : ans.overwriteAnswer = .given false) :
    createProject pn args world ans ua
        = ([.prompt "overwrite", .printOut cancelCreationMsg], .continue ())
    ∧ (createProject pn args world ans ua).1.all (fun e => !isMutation e) = true
    ∧ applyTrace fs (createProject pn args world ans ua).1 = fs := by
  have h1 : createProject pn args world ans ua
      = ([.prompt "overwrite", .printOut cancelCreationMsg], .continue ()) := by
    simp [createProject, hdest, how, hans]
  exact ⟨h1, by rw [h1]; rfl, by rw [h1]; rfl⟩

/-- C2 witness: the theorem applied at a concrete pre-existing
destination and filesystem snapshot. -/
theorem createProject_decline_overwrite_no_mutation_witness :
    worldDestYes.destExists = true
    ∧ (Argv.mk false false none none).overwrite = false
    ∧ answersDecline.overwriteAnswer = .given false
    ∧ applyTrace fsExample
        (createProject "my-app" ⟨false, false, none, none⟩ worldDestYes
          answersDecline none).1
      = fsExample :=
  ⟨rfl, rfl, rfl,
    (createProject_decline_overwrite_no_mutation "my-app" ⟨false, false, none, none⟩
      worldDestYes answersDecline none fsExample rfl rfl rfl).2.2⟩

/-- Helper: assigning key `k` makes it the first `k`-lookup result. -/
theorem lookupField_setField_self (m : List (String × JsonVal)) (k : String) (v : JsonVal) :
    lookupField (setField m k v) k = some v := by
  induction m with
  | nil => simp [setField, lookupField, List.find?]
  | cons f rest ih =>
      obtain ⟨k', v'⟩ := f
      by_cases h : k' = k
      · subst h
        simp [setField, lookupField, List.find?]
      · have hb : (k' == k) = false := by simpa using h
        simp only [setField, hb, Bool.false_eq_true, if_false]
        simpa [lookupField, List.find?, hb] using ih

/-- Helper: assigning key `k` leaves every field with a different key
unchanged, in unchanged relative order. -/
theorem filter_setField_ne (m : List (String × JsonVal)) (k : String) (v : JsonVal) :
    (setField m k v).filter (fun f => f.1 != k) = m.filter (fun f => f.1 != k) := by
  induction m with
  | nil => simp [setField]
  | cons f rest ih =>
      obtain ⟨k', v'⟩ := f
      by_cases h : k' = k
      · subst h
        simp [setField]
      · simp [setField, h, ih]

/-- Helper: assignment keeps the original key order, appending the key at
the end only when it was absent. -/
theorem map_fst_setField (m : List (String × JsonVal)) (k : String) (v : JsonVal) :
    (setField m k v).map Prod.fst
      = if m.any (fun f => f.1 == k) then m.map Prod.fst else m.map Prod.fst ++ [k] := by
  induction m with
  | nil => simp [setField]
  | cons f rest ih =>
      obtain ⟨k', v'⟩ := f
      by_cases h : k' = k
      · subst h
        simp [setField]
      · simp only [setField, beq_iff_eq, h, if_false, List.map_cons, ih, List.any_cons]
        by_cases hr : rest.any (fun f => f.1 == k)
        · simp [hr, h]
        · simp [hr, h]

/-- Helper: a nonempty object rendered with gap 2 opens with the brace,
a newline, and exactly two spaces of indentation before its first key. -/
theorem jsonRender_obj_two_space (k : String) (v : JsonVal) (gs : List (String × JsonVal)) :
    ∃ tail, jsonRender 2 0 (.obj ((k, v) :: gs)) = "\x7b\n  " ++ tail := by
  cases gs with
  | nil =>
      refine ⟨jsonQuote k ++ ": " ++ jsonRender 2 1 v ++ "\n\x7d", ?_⟩
      apply String.ext
      simp [jsonRender, jsonFields, jsonIndent, String.data_append]
  | cons g gs' =>
      refine ⟨jsonQuote k ++ ": " ++ jsonRender 2 1 v ++ ",\n"
          ++ jsonFields 2 1 (g :: gs') ++ "\n\x7d", ?_⟩
      apply String.ext
      simp [jsonRender, jsonFields, jsonIndent, String.data_append]

/-- C3: in a successful materialization of a template with a manifest,
the rewritten manifest's `name` field is exactly the supplied project
name, every other top-level field keeps its original value and relative
key order, and the file content written is the 2-space-gap
serialization of that rewritten manifest (a nonempty object's first
field being indented by exactly two spaces). -/
theorem packageJson_rewrite_spec (m : List (String × JsonVal)) (pn : String)
    (tree : List (String × String)) (ua : Option String) (sel : PAnswer String)
    (owa : PAnswer Bool) (ins : List (PAnswer String)) :
    lookupField (packageJsonRewritten m pn) "name" = some (.str pn)
    ∧ (packageJsonRewritten m pn).filter (fun f => f.1 != "name")
        = m.filter (fun f => f.1 != "name")
    ∧ ((packageJsonRewritten m pn).map Prod.fst
        = if m.any (fun f => f.1 == "name") then m.map Prod.fst
          else m.map Prod.fst ++ ["name"])
    ∧ packageJsonContent m pn = jsonRender 2 0 (.obj (packageJsonRewritten m pn))
    ∧ Eff.fsWrite (pathJoin pn "package.json") (packageJsonContent m pn)
        ∈ (createProject pn ⟨false, false, some "nodejs", none⟩
            ⟨false, tree, m, none, true⟩ ⟨ins, owa, sel, .given false⟩ ua).1
    ∧ (∀ k v gs, ∃ tail, jsonRender 2 0 (.obj ((k, v) :: gs)) = "\x7b\n  " ++ tail) := by
  refine ⟨lookupField_setField_self m "name" (.str pn),
    filter_setField_ne m "name" (.str pn),
    map_fst_setField m "name" (.str pn), rfl, ?_, jsonRender_obj_two_space⟩
  simp [createProject, selectTemplate, createProjectMaterialize, createProjectInstall,
    tryOps, runTry, templatesRegistry, nodejsTemplate, templateDir]

/-- C6: the process exit code is 0 on help display (which prints the
banner and usage only), on successful creation, on cancellation at a
prompt, and on a declined overwrite; it is 1 on an explicit failure
inside the creation `try` block (here: the template copy throwing) and
in the top-level catch handler for unhandled exceptions. -/
theorem exit_codes_spec (ow : Bool) (tv : Option String) (pos : Option MriVal)
    (world : World) (ans : Answers) (ua : Option String) (pn errText : String)
    (m : List (String × JsonVal)) (tree : List (String × String))
    (owa : PAnswer Bool) (sel : PAnswer String) (insAns : PAnswer Bool)
    (nameIns : List (PAnswer String)) :
    (init ⟨true, ow, tv, pos⟩ world ans ua
        = ([.banner, .printOut helpMessage], .continue ())
      ∧ finalExitCode (init ⟨true, ow, tv, pos⟩ world ans ua).2 = 0)
    ∧ finalExitCode (createProject pn ⟨false, false, some "nodejs", pos⟩
        ⟨false, tree, m, none, true⟩ ⟨nameIns, owa, sel, .given false⟩ ua).2 = 0
    ∧ finalExitCode (init ⟨false, ow, tv, none⟩ world
        ⟨[.cancel], owa, sel, insAns⟩ ua).2 = 0
    ∧ finalExitCode (createProject pn ⟨false, false, tv, pos⟩
        ⟨true, tree, m, none, true⟩ ⟨nameIns, .given false, sel, insAns⟩ ua).2 = 0
    ∧ finalExitCode (createProject pn ⟨false, false, some "nodejs", pos⟩
        ⟨false, tree, m, some .cp, true⟩ ⟨nameIns, owa, sel, insAns⟩ ua).2 = 1
    ∧ finalExitCode (topLevelCatch errText).2 = 1 :=
  ⟨⟨rfl, rfl⟩, rfl, rfl, rfl, rfl, rfl⟩

/-- C7 counterexample: cancelling the install-confirmation prompt does
not terminate without further flow steps — its `onCancel` handler runs
the step-printer (the next-steps block is printed) before
`process.exit(0)`. -/
theorem install_prompt_cancel_runs_step_printer :
    ((createProject "my-app" ⟨false, false, some "nodejs", none⟩
        ⟨false, [], [], none, true⟩ ⟨[], .given true, .given "nodejs", .cancel⟩ none).2
      = .exited 0)
    ∧ (Eff.printOut nextStepsHeader)
        ∈ (createProject "my-app" ⟨false, false, some "nodejs", none⟩
            ⟨false, [], [], none, true⟩ ⟨[], .given true, .given "nodejs", .cancel⟩ none).1 := by
  decide

/-- C7 (amended): cancellation at the name, overwrite and template
prompts exits 0 immediately with only the cancellation message printed
and nothing else done; cancellation at the install prompt also exits 0
and spawns nothing, but first prints the next-steps block (with all
steps, as if dependencies were not installed). -/
theorem prompt_cancellation_spec (ow : Bool) (tv : Option String) (pos : Option MriVal)
    (world : World) (owa : PAnswer Bool) (sel : PAnswer String) (insAns : PAnswer Bool)
    (nameIns : List (PAnswer String)) (pn : String) (ua : Option String)
    (m : List (String × JsonVal)) (tree : List (String × String)) :
    init ⟨false, ow, tv, none⟩ world ⟨[.cancel], owa, sel, insAns⟩ ua
        = ([.banner, .prompt "projectName", .printOut cancelledByUserMsg], .exited 0)
    ∧ createProject pn ⟨false, false, tv, pos⟩ ⟨true, tree, m, none, true⟩
        ⟨nameIns, .cancel, sel, insAns⟩ ua
        = ([.prompt "overwrite", .printOut cancelCreationMsg], .exited 0)
    ∧ createProject pn ⟨false, ow, none, pos⟩ ⟨false, tree, m, none, true⟩
        ⟨nameIns, owa, .cancel, insAns⟩ ua
        = ([.prompt "selectedTemplate", .printOut cancelledByUserMsg], .exited 0)
    ∧ ((createProject pn ⟨false, false, some "nodejs", pos⟩ ⟨false, tree, m, none, true⟩
          ⟨nameIns, owa, sel, .cancel⟩ ua).2 = .exited 0
        ∧ (Eff.printOut nextStepsHeader)
            ∈ (createProject pn ⟨false, false, some "nodejs", pos⟩
                ⟨false, tree, m, none, true⟩ ⟨nameIns, owa, sel, .cancel⟩ ua).1
        ∧ (createProject pn ⟨false, false, some "nodejs", pos⟩
              ⟨false, tree, m, none, true⟩ ⟨nameIns, owa, sel, .cancel⟩ ua).1.all
            (fun e => !isSpawn e) = true) := by
  refine ⟨rfl, rfl, rfl, rfl, ?_, rfl⟩
  simp [createProject, selectTemplate, createProjectMaterialize, createProjectInstall,
    tryOps, runTry, templatesRegistry, nodejsTemplate, templateDir, printNextSteps,
    nextStepsFrame, numberSteps]

/-- C8 counterexample: a whitespace-only positional argument is truthy in
JavaScript, so it is used as the project name without any trimming and
without the interactive name prompt — the destination directory `" "` is
created. -/
theorem whitespace_positional_bypasses_prompt :
    (Eff.fsMkdir " ")
        ∈ (init ⟨false, false, some "nodejs", some (.str " ")⟩
            ⟨false, [], [], none, true⟩ ⟨[], .given true, .given "nodejs", .given false⟩ none).1
    ∧ (Eff.prompt "projectName")
        ∉ (init ⟨false, false, some "nodejs", some (.str " ")⟩
            ⟨false, [], [], none, true⟩ ⟨[], .given true, .given "nodejs", .given false⟩ none).1 := by
  decide

/-- Helper: the validator accepts exactly the names that are nonempty
after trimming and match the lowercase pattern. -/
theorem validateProjectName_none_iff (s : String) :
    validateProjectName s = none ↔ (strTrim s ≠ "" ∧ matchesNamePattern s = true) := by
  unfold validateProjectName
  cases h1 : (strTrim s == "") with
  | true =>
      simp only [h1, if_true]
      simp only [beq_iff_eq] at h1
      simp [h1]
  | false =>
      cases h2 : matchesNamePattern s with
      | false => simp [h1, h2]
      | true =>
          simp only [h1, h2]
          simpa using h1

/-- Helper: a resolved text prompt always carries a validated value. -/
theorem runTextPrompt_validates (ins : List (PAnswer String)) (n : String)
    (h : runTextPrompt validateProjectName ins = .ok n) :
    strTrim n ≠ "" ∧ matchesNamePattern n = true := by
  induction ins with
  | nil => simp [runTextPrompt] at h
  | cons a rest ih =>
      cases a with
      | cancel => simp [runTextPrompt] at h
      | given s =>
          by_cases hv : validateProjectName s = none
          · simp [runTextPrompt, hv] at h
            subst h
            exact (validateProjectName_none_iff s).mp hv
          · have hb : (validateProjectName s == none) = false := by
              simpa using hv
            simp only [runTextPrompt, hb, Bool.false_eq_true, if_false] at h
            exact ih h

/-- C8 (amended): the front controller uses the positional argument as
the project name exactly when it is a nonempty string — NO trimming is
applied, so a whitespace-only positional is used as-is; an empty-string
or numeric positional (or none at all) falls back to the interactive
text prompt, whose inline validation guarantees any resolved name is
nonempty after trimming and matches the lowercase pattern. -/
theorem project_name_resolution_spec (s : String) (hs : s ≠ "")
    (ow : Bool) (tv : Option String) (world : World) (ans : Answers)
    (ua : Option String) (k : Int) (ins : List (PAnswer String)) (n : String) :
    init ⟨false, ow, tv, some (.str s)⟩ world ans ua
        = ([.banner] ++ (createProject s ⟨false, ow, tv, some (.str s)⟩ world ans ua).1,
           (createProject s ⟨false, ow, tv, some (.str s)⟩ world ans ua).2)
    ∧ init ⟨false, ow, tv, some (.str "")⟩ world ans ua
        = init ⟨false, ow, tv, none⟩ world ans ua
    ∧ init ⟨false, ow, tv, some (.num k)⟩ world ans ua
        = init ⟨false, ow, tv, none⟩ world ans ua
    ∧ (runTextPrompt validateProjectName ins = .ok n →
        strTrim n ≠ "" ∧ matchesNamePattern n = true)
    ∧ (init ⟨false, ow, tv, none⟩ world ans ua).1.take 2
        = [Eff.banner, Eff.prompt "projectName"] := by
  refine ⟨?_, rfl, rfl, runTextPrompt_validates ins n, ?_⟩
  · have hb : (s == "") = false := by simpa using hs
    simp [init, hb]
  · cases hr : runTextPrompt validateProjectName ans.nameInputs with
    | cancelled => simp [init, hr]
    | ok s' =>
        by_cases hb : s' = ""
        · subst hb
          simp [init, hr]
        · have hb2 : (s' == "") = false := by simpa using hb
          simp [init, hr, hb2]

/-- C8 witness: the amended theorem applied at the concrete name
`my-app`, both as a positional and as a validated prompt entry. -/
theorem project_name_resolution_spec_witness :
    ("my-app" : String) ≠ ""
    ∧ runTextPrompt validateProjectName [.given "my-app"] = .ok "my-app"
    ∧ matchesNamePattern "my-app" = true :=
  ⟨by decide, by decide,
    ((project_name_resolution_spec "my-app" (by decide) false none worldNoDest
        answersQuiet none 0 [.given "my-app"] "my-app").2.2.2.1 (by decide)).2⟩

/-- C9 counterexample: for the deno template the install confirmation
prompt IS still presented (the dependency-installer component is not
short-circuited before the prompt). -/
theorem deno_install_confirmation_counterexample :
    (Eff.prompt "installDeps")
      ∈ (createProject "my-app" ⟨false, false, some "deno", none⟩
          ⟨false, [], [], none, true⟩ ⟨[], .given true, .given "deno", .given true⟩ none).1 := by
  decide

/-- C9 (amended): for the deno template, the install confirmation prompt
is presented, and on an affirmative answer no child process is spawned —
the informational no-install message is printed instead and the flow
completes normally. -/
theorem deno_install_short_circuits_spawn (pn : String) (ua : Option String)
    (m : List (String × JsonVal)) (tree : List (String × String))
    (pos : Option MriVal) (nameIns : List (PAnswer String))
    (owa : PAnswer Bool) (sel : PAnswer String) :
    (Eff.prompt "installDeps")
        ∈ (createProject pn ⟨false, false, some "deno", pos⟩
            ⟨false, tree, m, none, true⟩ ⟨nameIns, owa, sel, .given true⟩ ua).1
    ∧ (Eff.printOut denoNoInstallMsg)
        ∈ (createProject pn ⟨false, false, some "deno", pos⟩
            ⟨false, tree, m, none, true⟩ ⟨nameIns, owa, sel, .given true⟩ ua).1
    ∧ (createProject pn ⟨false, false, some "deno", pos⟩
          ⟨false, tree, m, none, true⟩ ⟨nameIns, owa, sel, .given true⟩ ua).1.all
        (fun e => !isSpawn e) = true
    ∧ (createProject pn ⟨false, false, some "deno", pos⟩
          ⟨false, tree, m, none, true⟩ ⟨nameIns, owa, sel, .given true⟩ ua).2
        = .continue () := by
  refine ⟨?_, ?_, rfl, rfl⟩
  · simp [createProject, selectTemplate, createProjectMaterialize, createProjectInstall,
      tryOps, runTry, templatesRegistry, nodejsTemplate, bunTemplate, denoTemplate,
      templateDir, printNextSteps, nextStepsFrame, numberSteps]
  · simp [createProject, selectTemplate, createProjectMaterialize, createProjectInstall,
      tryOps, runTry, templatesRegistry, nodejsTemplate, bunTemplate, denoTemplate,
      templateDir, printNextSteps, nextStepsFrame, numberSteps]

/-- Helper: a substring of `b` is a substring of `a ++ b`. -/
theorem listContains_append_left (pat b : List Char) (h : listContains pat b = true)
    (a : List Char) : listContains pat (a ++ b) = true := by
  induction a with
  | nil => simpa using h
  | cons c cs ih => simp [listContains, ih]

/-- C10: `printNextSteps` with `depsInstalled = true` prints exactly the
template's steps without their first element (each with the project-name
and package-manager placeholders substituted), and with `false` prints
all steps; for every registry template the omitted first step is the
`cd <PROJECT_NAME>` step, and for the templates that have an install
step (all but deno) an install command is still among the printed
steps. -/
theorem printNextSteps_spec (t : Template) (hmem : t ∈ templatesRegistry)
    (pn : String) (ua : Option String) :
    printNextSteps pn t true ua = nextStepsFrame ((t.steps.drop 1).map (substStep pn ua))
    ∧ printNextSteps pn t false ua = nextStepsFrame (t.steps.map (substStep pn ua))
    ∧ t.steps.head? = some "cd <PROJECT_NAME>"
    ∧ (t.value = "deno"
        ∨ ((t.steps.drop 1).map (substStep pn ua)).any
            (fun s => strIncludes s "install") = true) := by
  have hm : t = nodejsTemplate ∨ t = bunTemplate ∨ t = denoTemplate := by
    simpa [templatesRegistry] using hmem
  refine ⟨rfl, rfl, ?_, ?_⟩
  · rcases hm with rfl | rfl | rfl <;> rfl
  · rcases hm with rfl | rfl | rfl
    · right
      have h1 : substStep pn ua "<PACKAGE_MANAGER> install"
          = detectPackageManager ua ++ " install" := rfl
      simp only [nodejsTemplate, List.drop, List.map_cons, List.map_nil, List.any_cons, h1]
      have h2 : strIncludes (detectPackageManager ua ++ " install") "install" = true := by
        unfold strIncludes
        rw [String.data_append]
        exact listContains_append_left _ _ (by decide) _
      simp [h2]
    · right
      have h1 : substStep pn ua "bun install" = "bun install" := rfl
      simp only [bunTemplate, List.drop, List.map_cons, List.map_nil, List.any_cons, h1]
      simp [show strIncludes "bun install" "install" = true from by decide]
    · left
      rfl

/-- C10 witness: the theorem applied at the nodejs template. -/
theorem printNextSteps_spec_witness :
    nodejsTemplate ∈ templatesRegistry
    ∧ nodejsTemplate.steps.head? = some "cd <PROJECT_NAME>" :=
  ⟨by decide, (printNextSteps_spec nodejsTemplate (by decide) "my-app" none).2.2.1⟩

end CreateKitojs
